import Mathlib

/-!
# Gemba Walk finding lifecycle and recurrence engine: a shallow embedding

This file embeds the business logic of the `gembops` repository's
Finding Lifecycle & Recurrence Engine in Lean 4 and proves the
specification's claims about it.

The embedding follows the source:
* `shared/schema.ts` — the `gembaWalks`, `gembaWalkAreas`,
  `gembaWalkParticipants`, `findings` and `notifications` tables become the
  `Walk`, `Finding` and `Notification` structures (the per-walk area and
  participant association tables are folded into `Walk.extraAreas` and
  `Walk.participants`).
* `server/routes.ts` — the `POST /api/gemba-walks`,
  `POST /api/findings`, `PATCH /api/findings/:id` and
  `GET /api/notifications/pending-count` handlers become
  `createGembaWalk`, `createFinding`, `patchFinding` and `pendingCount`.
* `server/storage.ts` — `DatabaseStorage.getGembaWalks` becomes
  `getGembaWalks`.

Calendar dates (`date-fns` `addWeeks` / `addMonths` and the `Date` ordering
used by the recurrence loop) are modelled structurally by `CalDate`.
JavaScript string truthiness (`x || null`, `if (x)`) is modelled by
`strTruthy` / `orNull` on `Option String`.
-/

namespace Gembops

/-! ## Calendar dates

The source stores dates as `yyyy-MM-dd` strings and manipulates them through
`date-fns` (`parseISO`, `addWeeks`, `addMonths`, `format`) plus JavaScript
`Date` comparison.  We model a date structurally as year/month/day; comparing
two valid dates' timestamps is equivalent to comparing the triples
lexicographically, which is how `dateLtB` is defined. -/

structure CalDate where
  year : Nat
  month : Nat
  day : Nat
deriving DecidableEq, Repr

/-- Gregorian leap-year rule, as implemented by the JavaScript `Date`. -/
def isLeapYear (y : Nat) : Bool :=
  (y % 4 == 0 && y % 100 != 0) || (y % 400 == 0)

/-- Number of days in a month of a given year. -/
def daysInMonth (y m : Nat) : Nat :=
  if m == 2 then (if isLeapYear y then 29 else 28)
  else if m == 4 || m == 6 || m == 9 || m == 11 then 30
  else 31

/-- The calendar day after `d`. -/
def nextDay (d : CalDate) : CalDate :=
  if d.day < daysInMonth d.year d.month then ⟨d.year, d.month, d.day + 1⟩
  else if d.month < 12 then ⟨d.year, d.month + 1, 1⟩
  else ⟨d.year + 1, 1, 1⟩

/-- `addDays d n` advances `d` by `n` calendar days.  `date-fns`
`addWeeks(date, 1)` is `addDays date 7`. -/
def addDays : CalDate → Nat → CalDate
  | d, 0 => d
  | d, n + 1 => addDays (nextDay d) n

/-- `date-fns` `addMonths(date, 1)`: move to the next calendar month,
clamping the day-of-month to the length of the target month. -/
def addMonths1 (d : CalDate) : CalDate :=
  if d.month < 12 then ⟨d.year, d.month + 1, min d.day (daysInMonth d.year (d.month + 1))⟩
  else ⟨d.year + 1, 1, min d.day (daysInMonth (d.year + 1) 1)⟩

/-- Strict ordering of dates: the lexicographic order on (year, month, day),
which agrees with comparing the underlying JavaScript `Date` timestamps for
well-formed dates. -/
def dateLtB (a b : CalDate) : Bool :=
  a.year < b.year ||
    (a.year == b.year &&
      (a.month < b.month || (a.month == b.month && a.day < b.day)))

/-! ## Entities and database state

`Walk` embeds a `gemba_walks` row together with its `gemba_walk_areas` rows
(`extraAreas`: the areas beyond the first, which is stored inline in `area`)
and its `gemba_walk_participants` rows (`participants`).  `createdAt` is the
row's insertion timestamp; since rows are only ever appended, we use the
serial id as the timestamp surrogate (both increase with insertion order,
which is all the `createdAt` ordering is used for). -/

structure Walk where
  id : Nat
  date : CalDate
  area : String
  leaderId : Option String
  createdBy : String
  createdAt : Nat
  isRecurring : Bool
  recurrencePattern : Option String
  recurrenceEndDate : Option CalDate
  parentWalkId : Option Nat
  extraAreas : List String
  participants : List String
deriving DecidableEq, Repr

/-- A `findings` row.  `dueDate` is kept as the raw string written by the
PATCH handler (`null` ↦ `none`). -/
structure Finding where
  id : Nat
  gembaWalkId : Nat
  area : Option String
  category : String
  description : String
  responsibleId : String
  dueDate : Option String
  status : String
  photoUrl : Option String
  photoUrls : List String
  closeComment : Option String
  closeEvidenceUrl : Option String
deriving DecidableEq, Repr

/-- A `notifications` row. -/
structure Notification where
  id : Nat
  userId : String
  type : String
  title : String
  message : String
  relatedFindingId : Option Nat
  relatedGembaWalkId : Option Nat
  isRead : Bool
  isActionRequired : Bool
  isActionCompleted : Bool
deriving DecidableEq, Repr

/-- The persistent state the handlers read and write: the `users`,
`gemba_walks` (+ associations), `findings` and `notifications` tables,
plus the serial-id counters. -/
structure DB where
  users : List String
  walks : List Walk
  findings : List Finding
  notifications : List Notification
  nextWalkId : Nat
  nextFindingId : Nat
  nextNotifId : Nat
deriving DecidableEq, Repr

/-- HTTP outcome classification of a handler: `ok` (200 JSON),
`badRequest` (400, `ValidationError`), `notFound` (404), `forbidden` (403). -/
inductive Resp where
  | ok : Resp
  | badRequest : Resp
  | notFound : Resp
  | forbidden : Resp
deriving DecidableEq, Repr

/-! ## JavaScript string truthiness -/

/-- JavaScript truthiness of a string field that may be absent:
`undefined`/`null` and the empty string are falsy. -/
def strTruthy : Option String → Bool
  | some s => !(s == "")
  | none => false

/-- JavaScript `x || null` for an optional string `x`. -/
def orNull (s : Option String) : Option String :=
  if strTruthy s then s else none

/-! ## Walk creation and the recurrence expander

Embedding of the `POST /api/gemba-walks` handler in `server/routes.ts`,
including its inline recurrence-expansion loop (`maxEvents = 12`). -/

/-- Zero-padding used by `date-fns` `format(date, "yyyy-MM-dd")`. -/
def pad2 (n : Nat) : String :=
  if n < 10 then "0" ++ toString n else toString n

/-- `date-fns` `format(d, "yyyy-MM-dd")`. -/
def fmtDate (d : CalDate) : String :=
  toString d.year ++ "-" ++ pad2 d.month ++ "-" ++ pad2 d.day

/-- One step of the recurrence loop's cursor:
`if (recurrencePattern === "weekly") addWeeks(d, 1)
 else if (recurrencePattern === "monthly") addMonths(d, 1)`.
Any other pattern value leaves the cursor unchanged, as in the source. -/
def advanceCursor (pattern : Option String) (d : CalDate) : CalDate :=
  if pattern == some "weekly" then addDays d 7
  else if pattern == some "monthly" then addMonths1 d
  else d

/-- The loop's termination test `endDate && currentDate > endDate`:
true when an end date is supplied and the advanced cursor strictly
exceeds it. -/
def exceedsEnd (endDate : Option CalDate) (cur : CalDate) : Bool :=
  match endDate with
  | some e => dateLtB e cur
  | none => false

/-- The date sequence produced by the recurrence loop: advance the cursor by
one recurrence unit, stop if an `endDate` is supplied and the advanced cursor
strictly exceeds it (`currentDate > endDate`), otherwise emit the advanced
date; at most `fuel` (= `maxEvents`, 12 in the handler) dates are emitted. -/
def expandDates (pattern : Option String) (endDate : Option CalDate) :
    Nat → CalDate → List CalDate
  | 0, _ => []
  | fuel + 1, cur =>
    let next := advanceCursor pattern cur
    if exceedsEnd endDate next then []
    else next :: expandDates pattern endDate fuel next

/-- The `gemba_walk_assigned` notification inserted for an assigned leader;
`isActionRequired` is always `false` for walk-assignment notifications. -/
def walkLeaderNotif (nid : Nat) (lid : String) (walkId : Nat)
    (title msg : String) : Notification :=
  { id := nid, userId := lid, type := "gemba_walk_assigned", title := title,
    message := msg, relatedFindingId := none, relatedGembaWalkId := some walkId,
    isRead := false, isActionRequired := false, isActionCompleted := false }

/-- The batch of `gemba_walk_assigned` notifications inserted for the
participant list (one row per participant, `isActionRequired = false`). -/
def walkParticipantNotifs (nid : Nat) (pids : List String) (walkId : Nat)
    (title msg : String) : List Notification :=
  pids.enum.map fun p =>
    { id := nid + p.1, userId := p.2, type := "gemba_walk_assigned",
      title := title, message := msg, relatedFindingId := none,
      relatedGembaWalkId := some walkId, isRead := false,
      isActionRequired := false, isActionCompleted := false }

/-- The recurrence loop body of `POST /api/gemba-walks`: per iteration it
advances the cursor, breaks if the advanced cursor exceeds `endDate`, and
otherwise persists one derived walk (isRecurring=false, parentWalkId=seed,
areas and participants copied from the request) followed by its participant
and leader `gemba_walk_assigned` notifications.  Returns the created walks
and notifications in insertion order; `wid`/`nid` are the serial-id
counters. -/
def recurLoop (pattern : Option String) (endDate : Option CalDate)
    (seedId : Nat) (headArea : String) (restAreas : List String)
    (lid : Option String) (pids : List String) (uid : String)
    (areasText : String) :
    Nat → CalDate → Nat → Nat → List Walk × List Notification
  | 0, _, _, _ => ([], [])
  | fuel + 1, cur, wid, nid =>
    let next := advanceCursor pattern cur
    if exceedsEnd endDate next then ([], [])
    else
      let w : Walk :=
        { id := wid, date := next, area := headArea, leaderId := lid,
          createdBy := uid, createdAt := wid, isRecurring := false,
          recurrencePattern := none, recurrenceEndDate := none,
          parentWalkId := some seedId, extraAreas := restAreas,
          participants := pids }
      let pNotifs := walkParticipantNotifs nid pids w.id
        "Gemba Walk recurrente asignado"
        ("Has sido asignado como participante de un Gemba Walk recurrente programado para el "
          ++ fmtDate next ++ ". Áreas: " ++ areasText)
      let lNotifs := match lid with
        | some l => [walkLeaderNotif (nid + pNotifs.length) l w.id
            "Gemba Walk recurrente asignado como líder"
            ("Has sido asignado como líder de un Gemba Walk recurrente programado para el "
              ++ fmtDate next ++ ". Áreas: " ++ areasText)]
        | none => []
      let rest := recurLoop pattern endDate seedId headArea restAreas lid pids
        uid areasText fuel next (wid + 1) (nid + pNotifs.length + lNotifs.length)
      (w :: rest.1, pNotifs ++ (lNotifs ++ rest.2))

/-- Request body of `POST /api/gemba-walks`. -/
structure CreateWalkReq where
  date : CalDate
  areas : List String
  leaderId : Option String
  participantIds : List String
  isRecurring : Bool
  recurrencePattern : Option String
  recurrenceEndDate : Option CalDate
deriving DecidableEq, Repr

/-- The `POST /api/gemba-walks` handler: validates the input, persists the
seed walk (with the recurrence descriptor and `parentWalkId = null`), emits
the leader/participant `gemba_walk_assigned` notifications, and when the walk
is recurring runs the expansion loop (`maxEvents = 12`). -/
def createGembaWalk (db : DB) (uid : String) (req : CreateWalkReq) :
    DB × Resp :=
  match req.areas with
  | [] => (db, Resp.badRequest)
  | headArea :: restAreas =>
    if req.isRecurring && !strTruthy req.recurrencePattern then
      (db, Resp.badRequest)
    else
      let lid := orNull req.leaderId
      let walkId := db.nextWalkId
      let seed : Walk :=
        { id := walkId, date := req.date, area := headArea, leaderId := lid,
          createdBy := uid, createdAt := walkId,
          isRecurring := req.isRecurring,
          recurrencePattern := orNull req.recurrencePattern,
          recurrenceEndDate := req.recurrenceEndDate,
          parentWalkId := none, extraAreas := restAreas,
          participants := req.participantIds }
      let areasText := String.intercalate ", " req.areas
      let lNotifs := match lid with
        | some l => [walkLeaderNotif db.nextNotifId l walkId
            "Gemba Walk asignado como líder"
            ("Has sido asignado como líder de un Gemba Walk programado para el "
              ++ fmtDate req.date ++ ". Áreas: " ++ areasText)]
        | none => []
      let pNotifs := walkParticipantNotifs (db.nextNotifId + lNotifs.length)
        req.participantIds walkId "Gemba Walk asignado"
        ("Has sido asignado como participante de un Gemba Walk programado para el "
          ++ fmtDate req.date ++ ". Áreas: " ++ areasText)
      let recur :=
        if req.isRecurring && strTruthy req.recurrencePattern then
          recurLoop req.recurrencePattern req.recurrenceEndDate walkId headArea
            restAreas lid req.participantIds uid areasText 12 req.date
            (walkId + 1) (db.nextNotifId + lNotifs.length + pNotifs.length)
        else ([], [])
      ({ db with
          walks := db.walks ++ seed :: recur.1,
          notifications :=
            db.notifications ++ (lNotifs ++ (pNotifs ++ recur.2)),
          nextWalkId := walkId + 1 + recur.1.length,
          nextNotifId := db.nextNotifId + lNotifs.length + pNotifs.length
            + recur.2.length },
        Resp.ok)

/-! ## Finding creation

Embedding of the `POST /api/findings` handler in `server/routes.ts`.  The
file-upload side channel (multer/S3) is modelled by passing the resulting
photo URL list directly in the request. -/

/-- Request body of `POST /api/findings`.  `gembaWalkId = 0` stands for a
missing/falsy id (the source reads it from a multipart form field and checks
JavaScript truthiness before `parseInt`). -/
structure CreateFindingReq where
  gembaWalkId : Nat
  area : Option String
  category : String
  description : String
  responsibleId : String
  status : Option String
  photoUrls : List String
deriving DecidableEq, Repr

/-- The `POST /api/findings` handler: requires gembaWalkId, category,
description and responsibleId (400 otherwise); 404 when the walk does not
exist; 403 unless the acting user is the walk's leader
(`!walk.leaderId || walk.leaderId !== userId`); 400 when the responsible
user does not exist.  On success persists the finding
(`status: status || "open"`, `dueDate: null`, `area: area || null`) and
inserts one `finding_assigned` notification (`isActionRequired: true`)
for the responsible user. -/
def createFinding (db : DB) (uid : String) (req : CreateFindingReq) :
    DB × Resp :=
  if req.gembaWalkId == 0 || req.category == "" || req.description == ""
      || req.responsibleId == "" then
    (db, Resp.badRequest)
  else
    match db.walks.find? (fun w => w.id == req.gembaWalkId) with
    | none => (db, Resp.notFound)
    | some walk =>
      if !(walk.leaderId == some uid) then (db, Resp.forbidden)
      else if !(db.users.contains req.responsibleId) then (db, Resp.badRequest)
      else
        let f : Finding :=
          { id := db.nextFindingId, gembaWalkId := req.gembaWalkId,
            area := orNull req.area, category := req.category,
            description := req.description,
            responsibleId := req.responsibleId, dueDate := none,
            status := (orNull req.status).getD "open",
            photoUrl := req.photoUrls.head?, photoUrls := req.photoUrls,
            closeComment := none, closeEvidenceUrl := none }
        let walkArea := if walk.area == "" then "desconocida" else walk.area
        let n : Notification :=
          { id := db.nextNotifId, userId := req.responsibleId,
            type := "finding_assigned", title := "Nuevo hallazgo asignado",
            message := "Se te ha asignado un nuevo hallazgo en el área "
              ++ walkArea ++ ". Categoría: " ++ req.category
              ++ ". Por favor establece la fecha de compromiso.",
            relatedFindingId := some f.id, relatedGembaWalkId := none,
            isRead := false, isActionRequired := true,
            isActionCompleted := false }
        ({ db with
            findings := db.findings ++ [f],
            notifications := db.notifications ++ [n],
            nextFindingId := db.nextFindingId + 1,
            nextNotifId := db.nextNotifId + 1 },
          Resp.ok)

/-! ## Finding update (status / close / due date)

Embedding of the `PATCH /api/findings/:id` handler in `server/routes.ts`. -/

/-- Request body of `PATCH /api/findings/:id`: `none` models an absent
(`undefined`) field; `closeEvidence` models the uploaded close-evidence
file's URL when a file is attached. -/
structure PatchFindingReq where
  status : Option String
  closeComment : Option String
  dueDate : Option String
  closeEvidence : Option String
deriving DecidableEq, Repr

/-- The field updates the handler accumulates in `updateData` and applies
through `storage.updateFinding`:
status when truthy; closeComment when not `undefined`; close-evidence URL
when a file is attached and status is `"closed"`;
`dueDate: dueDate || null` when `dueDate` is not `undefined`. -/
def applyPatch (req : PatchFindingReq) (f : Finding) : Finding :=
  let f1 := if strTruthy req.status then
      { f with status := req.status.getD "" } else f
  let f2 := match req.closeComment with
    | some c => { f1 with closeComment := some c }
    | none => f1
  let f3 := if req.closeEvidence.isSome && req.status == some "closed" then
      { f2 with closeEvidenceUrl := req.closeEvidence } else f2
  match req.dueDate with
  | some s => { f3 with dueDate := orNull (some s) }
  | none => f3

/-- The notification update performed when a due date is set for the first
time.  The source chains two `.where` calls on one drizzle update builder
(`.where(eq(notifications.relatedFindingId, id))
  .where(eq(notifications.type, "finding_assigned"))`); drizzle's builder
stores a single `where` condition and the second call replaces the first, so
at run time the update is filtered by `type = 'finding_assigned'` only — the
`relatedFindingId` filter is discarded. -/
def flipFirstDueDateNotifs (notifs : List Notification) : List Notification :=
  notifs.map fun n =>
    if n.type == "finding_assigned" then { n with isActionCompleted := true }
    else n

/-- The notification update performed when the finding transitions into
`closed`: every notification whose `relatedFindingId` is this finding is
marked `isActionCompleted`. -/
def flipCloseNotifs (fid : Nat) (notifs : List Notification) :
    List Notification :=
  notifs.map fun n =>
    if n.relatedFindingId == some fid then { n with isActionCompleted := true }
    else n

/-- One row of `storage.updateFinding(id, updateData)`: the update applies to
every findings row whose id matches, and leaves other rows unchanged. -/
def updRow (fid : Nat) (req : PatchFindingReq) (f : Finding) : Finding :=
  if f.id == fid then applyPatch req f else f

/-- The `PATCH /api/findings/:id` handler: 404 when the finding does not
exist; 403 unless the acting user is the finding's responsible user or the
owning walk's creator; 403 when `status == "closed"` and the actor is not
the responsible user; 403 when a due date is supplied and the actor is not
the responsible user.  On success it (1) flips `finding_assigned`
notifications when this is the finding's first due-date assignment, (2)
flips all notifications referencing the finding when it transitions into
`closed`, and (3) applies the accumulated field updates to every findings
row with this id. -/
def patchFinding (db : DB) (uid : String) (fid : Nat)
    (req : PatchFindingReq) : DB × Resp :=
  match db.findings.find? (fun f => f.id == fid) with
  | none => (db, Resp.notFound)
  | some finding =>
    let walk? := db.walks.find? (fun w => w.id == finding.gembaWalkId)
    let isResponsible := finding.responsibleId == uid
    let isCreator := match walk? with
      | some w => w.createdBy == uid
      | none => false
    if !(isResponsible || isCreator) then (db, Resp.forbidden)
    else if strTruthy req.status && req.status == some "closed"
        && !isResponsible then (db, Resp.forbidden)
    else if req.dueDate.isSome && !isResponsible then (db, Resp.forbidden)
    else
      let notifs1 :=
        if req.dueDate.isSome && !strTruthy finding.dueDate
            && strTruthy req.dueDate then
          flipFirstDueDateNotifs db.notifications
        else db.notifications
      let notifs2 :=
        if req.status == some "closed" && !(finding.status == "closed") then
          flipCloseNotifs fid notifs1
        else notifs1
      ({ db with
          findings := db.findings.map (updRow fid req),
          notifications := notifs2 },
        Resp.ok)

/-! ## Pending-action count and walk listing -/

/-- The `GET /api/notifications/pending-count` handler: the number of the
user's notifications with `isActionRequired` and not `isActionCompleted`. -/
def pendingCount (db : DB) (uid : String) : Nat :=
  (db.notifications.filter fun n =>
    n.userId == uid && n.isActionRequired && !n.isActionCompleted).length

/-- First-occurrence deduplication by walk id (the `Set`-based combine step
of `DatabaseStorage.getGembaWalks` in `server/storage.ts`); `seen` is the
set of ids already kept. -/
def dedupById : List Walk → List Nat → List Walk
  | [], _ => []
  | w :: ws, seen =>
    if seen.contains w.id then dedupById ws seen
    else w :: dedupById ws (w.id :: seen)

/-- Stable insertion for the descending-`createdAt` sort
(`.sort((a, b) => b.createdAt - a.createdAt)`). -/
def insertByCreatedAtDesc (w : Walk) : List Walk → List Walk
  | [] => [w]
  | x :: xs =>
    if w.createdAt ≤ x.createdAt then x :: insertByCreatedAtDesc w xs
    else w :: x :: xs

/-- Sort walks by `createdAt` descending. -/
def sortByCreatedAtDesc : List Walk → List Walk
  | [] => []
  | w :: ws => insertByCreatedAtDesc w (sortByCreatedAtDesc ws)

/-- `DatabaseStorage.getGembaWalks` (`server/storage.ts`): the walks where
the user is the creator, the leader, or a participant, combined in that
order, deduplicated by id keeping the first occurrence, and sorted by
`createdAt` descending. -/
def getGembaWalks (db : DB) (uid : String) : List Walk :=
  let asCreator := db.walks.filter fun w => w.createdBy == uid
  let asLeader := db.walks.filter fun w => w.leaderId == some uid
  let asParticipant := db.walks.filter fun w => w.participants.contains uid
  sortByCreatedAtDesc (dedupById (asCreator ++ asLeader ++ asParticipant) [])

/-! ## Concrete fixtures used by witnesses and counterexamples -/

/-- A walk led by "L", created by "C", with participant "P" and the single
area "Seguridad". -/
def fixWalk : Walk :=
  { id := 1, date := ⟨2024, 3, 1⟩, area := "Seguridad", leaderId := some "L",
    createdBy := "C", createdAt := 1, isRecurring := false,
    recurrencePattern := none, recurrenceEndDate := none,
    parentWalkId := none, extraAreas := [], participants := ["P"] }

/-- An open finding on `fixWalk` assigned to "R", with no due date. -/
def fixFinding : Finding :=
  { id := 1, gembaWalkId := 1, area := none, category := "Seguridad",
    description := "X", responsibleId := "R", dueDate := none,
    status := "open", photoUrl := none, photoUrls := [],
    closeComment := none, closeEvidenceUrl := none }

/-- A second open finding on `fixWalk`, assigned to "R2". -/
def fixFinding2 : Finding :=
  { fixFinding with id := 2, responsibleId := "R2" }

/-- The `finding_assigned` notification for `fixFinding`. -/
def fixNotif : Notification :=
  { id := 1, userId := "R", type := "finding_assigned",
    title := "Nuevo hallazgo asignado", message := "m",
    relatedFindingId := some 1, relatedGembaWalkId := none,
    isRead := false, isActionRequired := true, isActionCompleted := false }

/-- The `finding_assigned` notification for `fixFinding2`. -/
def fixNotif2 : Notification :=
  { fixNotif with id := 2, userId := "R2", relatedFindingId := some 2 }

/-- Base database: one walk, two open findings, their two assignment
notifications. -/
def fixDB : DB :=
  { users := ["C", "L", "R", "R2", "P"], walks := [fixWalk],
    findings := [fixFinding, fixFinding2],
    notifications := [fixNotif, fixNotif2],
    nextWalkId := 2, nextFindingId := 3, nextNotifId := 3 }

/-- `fixDB` with the first finding's due date already set. -/
def fixDBdue : DB :=
  { fixDB with
    findings := [{ fixFinding with dueDate := some "2024-03-10" }, fixFinding2] }

/-- A close request with a comment. -/
def fixCloseReq : PatchFindingReq :=
  { status := some "closed", closeComment := some "fixed", dueDate := none,
    closeEvidence := none }

/-- A first due-date request. -/
def fixDueReq : PatchFindingReq :=
  { status := none, closeComment := none, dueDate := some "2024-03-10",
    closeEvidence := none }

/-- A second due-date request with a different date. -/
def fixDueReq2 : PatchFindingReq :=
  { fixDueReq with dueDate := some "2024-04-01" }

/-- A finding-creation request whose specific area "Calidad" is not among
`fixWalk`'s areas. -/
def fixCreateReq : CreateFindingReq :=
  { gembaWalkId := 1, area := some "Calidad", category := "Seguridad",
    description := "X", responsibleId := "R", status := none,
    photoUrls := [] }

/-- `fixCreateReq` with an explicit `status` field in the request body. -/
def fixCreateClosedReq : CreateFindingReq :=
  { fixCreateReq with status := some "closed" }

/-- A recurring weekly walk-creation request. -/
def fixWalkReq : CreateWalkReq :=
  { date := ⟨2024, 3, 1⟩, areas := ["A", "B"], leaderId := some "L",
    participantIds := ["P"], isRecurring := true,
    recurrencePattern := some "weekly", recurrenceEndDate := none }

/-! ## Date-arithmetic lemmas -/

theorem dateLtB_trans {a b c : CalDate} (hab : dateLtB a b = true)
    (hbc : dateLtB b c = true) : dateLtB a c = true := by
  simp only [dateLtB, Bool.or_eq_true, Bool.and_eq_true, decide_eq_true_eq,
    beq_iff_eq] at hab hbc ⊢
  omega

theorem dateLtB_nextDay (d : CalDate) : dateLtB d (nextDay d) = true := by
  unfold nextDay
  by_cases h1 : d.day < daysInMonth d.year d.month
  · simp [h1, dateLtB]
  · by_cases h2 : d.month < 12 <;> simp [h1, h2, dateLtB]

theorem dateLtB_addDays (d : CalDate) (n : Nat) (hn : 0 < n) :
    dateLtB d (addDays d n) = true := by
  induction n generalizing d with
  | zero => omega
  | succ m ih =>
    rcases Nat.eq_zero_or_pos m with hm | hm
    · subst hm
      simpa [addDays] using dateLtB_nextDay d
    · have h1 : dateLtB d (nextDay d) = true := dateLtB_nextDay d
      have h2 : dateLtB (nextDay d) (addDays (nextDay d) m) = true := ih _ hm
      have : addDays d (m + 1) = addDays (nextDay d) m := rfl
      rw [this]
      exact dateLtB_trans h1 h2

theorem addDays_add (d : CalDate) (m n : Nat) :
    addDays d (m + n) = addDays (addDays d m) n := by
  induction m generalizing d with
  | zero => simp [addDays]
  | succ k ih =>
    have h1 : addDays d (k + 1 + n) = addDays (nextDay d) (k + n) := by
      have : k + 1 + n = (k + n) + 1 := by omega
      rw [this]
      rfl
    have h2 : addDays d (k + 1) = addDays (nextDay d) k := rfl
    rw [h1, h2, ih]

theorem dateLtB_addMonths1 (d : CalDate) : dateLtB d (addMonths1 d) = true := by
  unfold addMonths1
  by_cases h : d.month < 12 <;> simp [h, dateLtB]

/-- The dates of the walks created by the recurrence loop are exactly the
date sequence `expandDates` computes. -/
theorem recurLoop_dates (pattern : Option String) (endDate : Option CalDate)
    (seedId : Nat) (headArea : String) (restAreas : List String)
    (lid : Option String) (pids : List String) (uid : String)
    (areasText : String) (fuel : Nat) :
    ∀ cur wid nid,
      (recurLoop pattern endDate seedId headArea restAreas lid pids uid
        areasText fuel cur wid nid).1.map (fun w => w.date) =
      expandDates pattern endDate fuel cur := by
  induction fuel with
  | zero => intro cur wid nid; rfl
  | succ k ih =>
    intro cur wid nid
    simp only [recurLoop, expandDates]
    by_cases h : exceedsEnd endDate (advanceCursor pattern cur) = true
    · simp [h]
    · simp [h, ih]

/-! ## Lemmas about the recurrence date sequence -/

theorem dateLtB_addDays_lt (d : CalDate) {m n : Nat} (h : m < n) :
    dateLtB (addDays d m) (addDays d n) = true := by
  have h2 : n = m + (n - m) := by omega
  rw [h2, addDays_add]
  exact dateLtB_addDays _ _ (by omega)

theorem advanceCursor_weekly (cur : CalDate) :
    advanceCursor (some "weekly") cur = addDays cur 7 := by
  simp [advanceCursor]

theorem expandDates_succ (p : Option String) (e : Option CalDate) (k : Nat)
    (cur : CalDate) :
    expandDates p e (k + 1) cur =
      if exceedsEnd e (advanceCursor p cur) then []
      else advanceCursor p cur :: expandDates p e k (advanceCursor p cur) :=
  rfl

theorem addDays_seven_shift (cur : CalDate) (i : Nat) :
    addDays (addDays cur 7) (7 * (i + 1)) = addDays cur (7 * (i + 1 + 1)) := by
  have h7 : 7 * (i + 1 + 1) = 7 + 7 * (i + 1) := by ring
  rw [h7, addDays_add]

theorem expandDates_weekly_none (fuel : Nat) :
    ∀ cur, expandDates (some "weekly") none fuel cur =
      (List.range fuel).map (fun i => addDays cur (7 * (i + 1))) := by
  induction fuel with
  | zero => intro cur; rfl
  | succ k ih =>
    intro cur
    rw [expandDates_succ]
    have h : exceedsEnd none (advanceCursor (some "weekly") cur) = false := rfl
    rw [h, if_neg (Bool.false_ne_true)]
    rw [advanceCursor_weekly, ih, List.range_succ_eq_map, List.map_cons,
      List.map_map]
    simp only [List.cons.injEq]
    constructor
    · norm_num
    · refine List.map_congr_left (fun i _ => ?_)
      simp only [Function.comp_apply, Nat.succ_eq_add_one]
      exact addDays_seven_shift cur i

theorem expandDates_weekly_pairwise (cur : CalDate) (fuel : Nat) :
    (expandDates (some "weekly") none fuel cur).Pairwise
      (fun a b => dateLtB a b = true) := by
  rw [expandDates_weekly_none, List.pairwise_map]
  refine (List.pairwise_lt_range fuel).imp ?_
  intro a b hab
  exact dateLtB_addDays_lt cur (by omega)

theorem expandDates_endDate (p : Option String) (e : CalDate) (fuel : Nat) :
    ∀ cur, expandDates p (some e) fuel cur =
      (expandDates p none fuel cur).takeWhile (fun d => !dateLtB e d) := by
  induction fuel with
  | zero => intro cur; rfl
  | succ k ih =>
    intro cur
    rw [expandDates_succ, expandDates_succ]
    have h0 : exceedsEnd none (advanceCursor p cur) = false := rfl
    rw [h0, if_neg (Bool.false_ne_true)]
    have h1 : exceedsEnd (some e) (advanceCursor p cur)
        = dateLtB e (advanceCursor p cur) := rfl
    by_cases h : dateLtB e (advanceCursor p cur) = true
    · rw [h1, h, if_pos rfl, List.takeWhile_cons]
      simp [h]
    · rw [Bool.not_eq_true] at h
      rw [h1, h, if_neg (Bool.false_ne_true), List.takeWhile_cons]
      simp [h, ih]

/-! ## Claim theorems -/

/-- **C1**: the recurrence expansion starts from the seed's date and advances
the cursor by one recurrence unit per step (7 days for weekly, one calendar
month for monthly), emitting one instance per advance; with no end date it
stops after exactly `maxInstances = 12` emissions, with
`instances[i] = seed + 7*(i+1)` days for weekly, in strictly increasing date
order; with an end date, exactly the prefix of advanced dates at or before
the end date is emitted (a date strictly after it is not), and when the end
date precedes the first advanced date zero instances are produced. -/
theorem recurrence_expansion_spec :
    (∀ seed : CalDate,
      expandDates (some "weekly") none 12 seed =
        (List.range 12).map (fun i => addDays seed (7 * (i + 1))) ∧
      (expandDates (some "weekly") none 12 seed).length = 12 ∧
      (expandDates (some "weekly") none 12 seed).Pairwise
        (fun a b => dateLtB a b = true)) ∧
    (∀ seed : CalDate, advanceCursor (some "weekly") seed = addDays seed 7) ∧
    (∀ seed : CalDate, advanceCursor (some "monthly") seed = addMonths1 seed) ∧
    (∀ (p : Option String) (e seed : CalDate),
      expandDates p (some e) 12 seed =
        (expandDates p none 12 seed).takeWhile (fun d => !dateLtB e d)) ∧
    (∀ (p : Option String) (e seed : CalDate),
      dateLtB e (advanceCursor p seed) = true →
      expandDates p (some e) 12 seed = []) := by
  refine ⟨fun seed => ⟨expandDates_weekly_none 12 seed, ?_,
      expandDates_weekly_pairwise seed 12⟩,
    fun seed => advanceCursor_weekly seed,
    fun seed => by simp [advanceCursor],
    fun p e seed => expandDates_endDate p e 12 seed,
    fun p e seed h => ?_⟩
  · rw [expandDates_weekly_none]
    simp
  · rw [expandDates_succ,
      show exceedsEnd (some e) (advanceCursor p seed)
        = dateLtB e (advanceCursor p seed) from rfl,
      h, if_pos rfl]

/-- Witness for `recurrence_expansion_spec`: the spec's own monthly fixture
(seed 2024-01-15 with end date 2024-01-20, which precedes the first advanced
date 2024-02-15) yields zero instances. -/
theorem recurrence_expansion_spec_witness :
    dateLtB ⟨2024, 1, 20⟩ (advanceCursor (some "monthly") ⟨2024, 1, 15⟩)
        = true ∧
    expandDates (some "monthly") (some ⟨2024, 1, 20⟩) 12 ⟨2024, 1, 15⟩ = [] :=
  ⟨by decide, recurrence_expansion_spec.2.2.2.2 (some "monthly") ⟨2024, 1, 20⟩
    ⟨2024, 1, 15⟩ (by decide)⟩

/-- Every walk created by the recurrence loop carries `isRecurring = false`,
`parentWalkId = some seedId`, no recurrence descriptor of its own, and the
seed request's areas, leader and participants. -/
theorem recurLoop_walk_fields (pattern : Option String)
    (endDate : Option CalDate) (seedId : Nat) (headArea : String)
    (restAreas : List String) (lid : Option String) (pids : List String)
    (uid : String) (areasText : String) (fuel : Nat) :
    ∀ cur wid nid w,
      w ∈ (recurLoop pattern endDate seedId headArea restAreas lid pids uid
        areasText fuel cur wid nid).1 →
      w.isRecurring = false ∧ w.parentWalkId = some seedId ∧
      w.area = headArea ∧ w.extraAreas = restAreas ∧
      w.participants = pids ∧ w.recurrencePattern = none ∧
      w.recurrenceEndDate = none ∧ w.leaderId = lid ∧ w.createdBy = uid := by
  induction fuel with
  | zero => intro cur wid nid w hw; simp [recurLoop] at hw
  | succ k ih =>
    intro cur wid nid w hw
    simp only [recurLoop] at hw
    by_cases h : exceedsEnd endDate (advanceCursor pattern cur) = true
    · simp [h] at hw
    · rw [if_neg (by simp [h])] at hw
      rcases List.mem_cons.mp hw with hw | hw
      · subst hw
        exact ⟨rfl, rfl, rfl, rfl, rfl, rfl, rfl, rfl, rfl⟩
      · exact ih _ _ _ w hw

/-- **C7**: every walk instance produced by recurrence expansion carries
`isRecurring = false` and `parentWalkId = some seed.id`, copying the seed's
area list and participant list verbatim; the seed walk itself carries the
recurrence descriptor, a null `parentWalkId`, and is never re-emitted by the
expander (it does not occur among the emitted instances). -/
theorem recurring_walk_invariant (db : DB) (uid : String)
    (req : CreateWalkReq) (headArea : String) (restAreas : List String)
    (hA : req.areas = headArea :: restAreas)
    (hR : req.isRecurring = true)
    (hP : strTruthy req.recurrencePattern = true) :
    ∃ seed inst,
      (createGembaWalk db uid req).1.walks = db.walks ++ seed :: inst ∧
      (createGembaWalk db uid req).2 = Resp.ok ∧
      seed.isRecurring = true ∧
      seed.recurrencePattern = req.recurrencePattern ∧
      seed.recurrenceEndDate = req.recurrenceEndDate ∧
      seed.parentWalkId = none ∧
      seed.date = req.date ∧
      seed.area = headArea ∧ seed.extraAreas = restAreas ∧
      seed.participants = req.participantIds ∧
      (∀ w ∈ inst, w.isRecurring = false ∧ w.parentWalkId = some seed.id ∧
        w.area = headArea ∧ w.extraAreas = restAreas ∧
        w.participants = req.participantIds) ∧
      seed ∉ inst := by
  obtain ⟨date, areas, leaderId, participantIds, isRecurring,
    recurrencePattern, recurrenceEndDate⟩ := req
  simp only at hA hR hP
  subst hA hR
  have hOr : orNull recurrencePattern = recurrencePattern := by
    simp [orNull, hP]
  simp only [createGembaWalk, hP, Bool.not_true, Bool.and_false,
    Bool.false_eq_true, if_false, Bool.and_true, if_true, hOr]
  refine ⟨_, _, rfl, trivial, rfl, rfl, rfl, rfl, rfl, rfl, rfl, rfl, ?_,
    ?_⟩
  · intro w hw
    have h := recurLoop_walk_fields recurrencePattern recurrenceEndDate
      db.nextWalkId headArea restAreas (orNull leaderId) participantIds uid
      (String.intercalate ", " (headArea :: restAreas)) 12 date
      (db.nextWalkId + 1) _ w hw
    exact ⟨h.1, h.2.1, h.2.2.1, h.2.2.2.1, h.2.2.2.2.1⟩
  · intro hmem
    have h := recurLoop_walk_fields recurrencePattern recurrenceEndDate
      db.nextWalkId headArea restAreas (orNull leaderId) participantIds uid
      (String.intercalate ", " (headArea :: restAreas)) 12 date
      (db.nextWalkId + 1) _ _ hmem
    simp at h

/-- **C4**: a status update with `newStatus == "closed"` by any actor who is
not the finding's responsible user is rejected with Forbidden — including the
owning walk's creator, whose administrative path may move a finding to a
non-closed status (second conjunct) but never transition it into `closed`. -/
theorem close_only_by_responsible (db : DB) (uid : String) (fid : Nat)
    (req : PatchFindingReq) (f : Finding)
    (hf : db.findings.find? (fun x => x.id == fid) = some f)
    (hnr : f.responsibleId ≠ uid) :
    (req.status = some "closed" →
      patchFinding db uid fid req = (db, Resp.forbidden)) ∧
    (∀ walk s, db.walks.find? (fun w => w.id == f.gembaWalkId) = some walk →
      walk.createdBy = uid → req.status = some s → s ≠ "closed" → s ≠ "" →
      req.dueDate = none → (patchFinding db uid fid req).2 = Resp.ok) := by
  have hrb : (f.responsibleId == uid) = false := by
    simp [hnr]
  constructor
  · intro hst
    simp only [patchFinding, hf]
    cases hwq : db.walks.find? (fun w => w.id == f.gembaWalkId) with
    | none => simp [hwq, hrb, hst, strTruthy]
    | some walk =>
      by_cases hc : (walk.createdBy == uid) = true
      · simp [hwq, hrb, hc, hst, strTruthy]
      · simp [hwq, hrb, eq_false_of_ne_true hc, hst, strTruthy]
  · intro walk s hwq hc hst hs1 hs2 hd
    simp only [patchFinding, hf]
    simp [hwq, hrb, hc, hst, hd, strTruthy, hs1, hs2]

/-- Witness for `close_only_by_responsible`: the walk's creator "C" cannot
close finding 1 (responsible is "R"), but can move it to status "open". -/
theorem close_only_by_responsible_witness :
    patchFinding fixDB "C" 1 fixCloseReq = (fixDB, Resp.forbidden) ∧
    (patchFinding fixDB "C" 1 ⟨some "open", none, none, none⟩).2 = Resp.ok :=
  ⟨(close_only_by_responsible fixDB "C" 1 fixCloseReq fixFinding rfl
      (by decide)).1 rfl,
   (close_only_by_responsible fixDB "C" 1 ⟨some "open", none, none, none⟩
      fixFinding rfl (by decide)).2 fixWalk "open" rfl rfl rfl (by decide)
      (by decide) rfl⟩

/-- `applyPatch` never changes the finding's id. -/
theorem applyPatch_id (req : PatchFindingReq) (f : Finding) :
    (applyPatch req f).id = f.id := by
  simp only [applyPatch]
  split <;> split <;> split <;> split <;> rfl

/-- `applyPatch` never changes the finding's responsible user. -/
theorem applyPatch_responsibleId (req : PatchFindingReq) (f : Finding) :
    (applyPatch req f).responsibleId = f.responsibleId := by
  simp only [applyPatch]
  split <;> split <;> split <;> split <;> rfl

/-- A close request always leaves the finding with status `"closed"`. -/
theorem applyPatch_close_status (c ev : Option String) (f : Finding) :
    (applyPatch ⟨some "closed", c, none, ev⟩ f).status = "closed" := by
  cases c <;> cases ev <;> rfl

/-- Applying the same close request twice is the same as applying it once. -/
theorem applyPatch_close_idem (c ev : Option String) (f : Finding) :
    applyPatch ⟨some "closed", c, none, ev⟩
        (applyPatch ⟨some "closed", c, none, ev⟩ f)
      = applyPatch ⟨some "closed", c, none, ev⟩ f := by
  cases c <;> cases ev <;> rfl

/-- Looking up a finding id after `updateFinding` returns the patched row. -/
theorem find?_updRow (l : List Finding) (fid : Nat) (req : PatchFindingReq) :
    (l.map (updRow fid req)).find? (fun f => f.id == fid)
      = (l.find? (fun f => f.id == fid)).map (applyPatch req) := by
  induction l with
  | nil => rfl
  | cons a l ih =>
    rw [List.map_cons, List.find?_cons, List.find?_cons]
    by_cases h : (a.id == fid) = true
    · have h2 : ((updRow fid req a).id == fid) = true := by
        rw [updRow, if_pos h, applyPatch_id]
        exact h
      rw [h2, h, updRow, if_pos h]
      rfl
    · have h3 : (a.id == fid) = false := eq_false_of_ne_true h
      have h2 : ((updRow fid req a).id == fid) = false := by
        rw [updRow, if_neg h]
        exact h3
      simp only [h2, h3]
      exact ih

/-- Re-applying the per-row close update to an already-updated findings
table is the identity. -/
theorem close_update_idem (fid : Nat) (c ev : Option String)
    (l : List Finding) :
    ((l.map (updRow fid ⟨some "closed", c, none, ev⟩)).map
        (updRow fid ⟨some "closed", c, none, ev⟩))
      = l.map (updRow fid ⟨some "closed", c, none, ev⟩) := by
  rw [List.map_map]
  refine List.map_congr_left (fun x _ => ?_)
  show updRow fid ⟨some "closed", c, none, ev⟩
      (updRow fid ⟨some "closed", c, none, ev⟩ x)
    = updRow fid ⟨some "closed", c, none, ev⟩ x
  by_cases h : (x.id == fid) = true
  · have hx : updRow fid ⟨some "closed", c, none, ev⟩ x
        = applyPatch ⟨some "closed", c, none, ev⟩ x := by
      rw [updRow, if_pos h]
    rw [hx, updRow]
    rw [if_pos (show ((applyPatch ⟨some "closed", c, none, ev⟩ x).id == fid)
        = true by rw [applyPatch_id]; exact h)]
    exact applyPatch_close_idem c ev x
  · have hx : updRow fid ⟨some "closed", c, none, ev⟩ x = x := by
      rw [updRow, if_neg h]
    rw [hx, hx]

/-- A close request on an already-closed finding by the responsible user is
a no-op success: the guard `finding.status !== "closed"` blocks the
notification mutation, and re-applying the row update changes nothing. -/
theorem patch_noop_close (db' : DB) (uid : String) (fid : Nat)
    (c ev : Option String) (f' : Finding)
    (hf' : db'.findings.find? (fun x => x.id == fid) = some f')
    (hr' : f'.responsibleId = uid)
    (hst : f'.status = "closed")
    (hidem : db'.findings.map (updRow fid ⟨some "closed", c, none, ev⟩)
      = db'.findings) :
    patchFinding db' uid fid ⟨some "closed", c, none, ev⟩ = (db', Resp.ok) := by
  have hrt : (f'.responsibleId == uid) = true := by simp [hr']
  simp [patchFinding, hf', hrt, strTruthy, hst, hidem]

/-- **C5**: Close is idempotent.  A close request by the responsible user
succeeds; repeating the identical close request succeeds again, yields
`status == "closed"` both times, and leaves the database exactly as after
the first close — in particular the close-notification mutation
(`flipCloseNotifs`) is not applied a second time, because the
`finding.status !== "closed"` guard fails once the finding is closed. -/
theorem close_idempotent (db : DB) (uid : String) (fid : Nat)
    (c ev : Option String) (f : Finding)
    (hf : db.findings.find? (fun x => x.id == fid) = some f)
    (hr : f.responsibleId = uid) :
    (patchFinding db uid fid ⟨some "closed", c, none, ev⟩).2 = Resp.ok ∧
    ((patchFinding db uid fid ⟨some "closed", c, none, ev⟩).1.findings.find?
        (fun x => x.id == fid)).map (fun x => x.status) = some "closed" ∧
    patchFinding (patchFinding db uid fid ⟨some "closed", c, none, ev⟩).1 uid
        fid ⟨some "closed", c, none, ev⟩
      = ((patchFinding db uid fid ⟨some "closed", c, none, ev⟩).1, Resp.ok) := by
  have hrt : (f.responsibleId == uid) = true := by simp [hr]
  have h1 : patchFinding db uid fid ⟨some "closed", c, none, ev⟩
      = ({ db with
            findings :=
              db.findings.map (updRow fid ⟨some "closed", c, none, ev⟩),
            notifications :=
              if !(f.status == "closed")
              then flipCloseNotifs fid db.notifications
              else db.notifications }, Resp.ok) := by
    simp [patchFinding, hf, hrt, strTruthy]
  rw [h1]
  refine ⟨rfl, ?_, ?_⟩
  · rw [show ({ db with
        findings := db.findings.map (updRow fid ⟨some "closed", c, none, ev⟩),
        notifications :=
          if !(f.status == "closed")
          then flipCloseNotifs fid db.notifications
          else db.notifications } : DB).findings
      = db.findings.map (updRow fid ⟨some "closed", c, none, ev⟩) from rfl]
    rw [find?_updRow, hf]
    simp [applyPatch_close_status]
  · refine patch_noop_close _ uid fid c ev
      (applyPatch ⟨some "closed", c, none, ev⟩ f) ?_ ?_ ?_ ?_
    · show (db.findings.map
          (updRow fid ⟨some "closed", c, none, ev⟩)).find?
          (fun x => x.id == fid)
        = some (applyPatch ⟨some "closed", c, none, ev⟩ f)
      rw [find?_updRow, hf]
      rfl
    · rw [applyPatch_responsibleId]
      exact hr
    · exact applyPatch_close_status c ev f
    · exact close_update_idem fid c ev db.findings

/-- Witness for `close_idempotent`: closing finding 1 of `fixDB` twice as
its responsible user "R". -/
theorem close_idempotent_witness :
    (patchFinding fixDB "R" 1 ⟨some "closed", some "fixed", none, none⟩).2
        = Resp.ok ∧
    ((patchFinding fixDB "R" 1
        ⟨some "closed", some "fixed", none, none⟩).1.findings.find?
        (fun x => x.id == 1)).map (fun x => x.status) = some "closed" ∧
    patchFinding (patchFinding fixDB "R" 1
        ⟨some "closed", some "fixed", none, none⟩).1 "R" 1
        ⟨some "closed", some "fixed", none, none⟩
      = ((patchFinding fixDB "R" 1
          ⟨some "closed", some "fixed", none, none⟩).1, Resp.ok) :=
  close_idempotent fixDB "R" 1 (some "fixed") none fixFinding rfl rfl

/-- A patch whose body carries a `dueDate` field writes `dueDate || null`
into the finding. -/
theorem applyPatch_dueDate_set (req : PatchFindingReq) (f : Finding)
    (s : String) (hd : req.dueDate = some s) :
    (applyPatch req f).dueDate = orNull (some s) := by
  simp only [applyPatch, hd]

/-- `s || null` is `s` for a nonempty string. -/
theorem orNull_some {s : String} (hs : s ≠ "") :
    orNull (some s) = some s := by
  simp [orNull, strTruthy, hs]

/-- **C3 (amended)**: only the responsible user may set a due date — any
other actor, including the walk's creator and leader, is rejected with
Forbidden.  However the handler enforces no `dueDate == null` precondition:
a due-date patch by the responsible user succeeds and writes the new date
regardless of the currently stored one (a second SetDueDate silently
overwrites), and the first-assignment notification flip is skipped when a
due date is already present. -/
theorem set_due_date_responsible_only (db : DB) (uid : String) (fid : Nat)
    (req : PatchFindingReq) (f : Finding)
    (hf : db.findings.find? (fun x => x.id == fid) = some f) :
    (req.dueDate.isSome = true → f.responsibleId ≠ uid →
      patchFinding db uid fid req = (db, Resp.forbidden)) ∧
    (∀ s, f.responsibleId = uid → req.status = none → req.dueDate = some s →
      s ≠ "" →
      (patchFinding db uid fid req).2 = Resp.ok ∧
      ((patchFinding db uid fid req).1.findings.find?
          (fun x => x.id == fid)).map (fun x => x.dueDate) = some (some s) ∧
      (strTruthy f.dueDate = true →
        (patchFinding db uid fid req).1.notifications = db.notifications)) := by
  constructor
  · intro hd hnr
    have hrb : (f.responsibleId == uid) = false := by simp [hnr]
    simp only [patchFinding, hf]
    cases hwq : db.walks.find? (fun w => w.id == f.gembaWalkId) with
    | none => simp [hwq, hrb, hd]
    | some walk =>
      by_cases hc : (walk.createdBy == uid) = true
      · simp [hwq, hrb, hc, hd]
      · simp [hwq, hrb, eq_false_of_ne_true hc, hd]
  · intro s hr hst hd hs
    have hrt : (f.responsibleId == uid) = true := by simp [hr]
    have h1 : patchFinding db uid fid req
        = ({ db with
              findings := db.findings.map (updRow fid req),
              notifications :=
                if !(strTruthy f.dueDate)
                then flipFirstDueDateNotifs db.notifications
                else db.notifications }, Resp.ok) := by
      simp [patchFinding, hf, hrt, hst, hd, strTruthy, hs]
    rw [h1]
    refine ⟨rfl, ?_, ?_⟩
    · rw [show ({ db with
          findings := db.findings.map (updRow fid req),
          notifications :=
            if !(strTruthy f.dueDate)
            then flipFirstDueDateNotifs db.notifications
            else db.notifications } : DB).findings
        = db.findings.map (updRow fid req) from rfl]
      rw [find?_updRow, hf]
      simp [applyPatch_dueDate_set req f s hd, orNull_some hs]
    · intro htr
      simp [htr]

/-- **C3 counterexample**: finding 1 of `fixDBdue` already has due date
2024-03-10; a second SetDueDate by the responsible user "R" succeeds and
silently overwrites it with 2024-04-01, so "SetDueDate succeeds only when
the finding's dueDate is currently null / must not silently overwrite" is
false on the code. -/
theorem set_due_date_overwrite_cex :
    fixDBdue.findings.map (fun f => f.dueDate)
        = [some "2024-03-10", none] ∧
    (patchFinding fixDBdue "R" 1 fixDueReq2).2 = Resp.ok ∧
    (patchFinding fixDBdue "R" 1 fixDueReq2).1.findings.map
        (fun f => f.dueDate)
      = [some "2024-04-01", none] := by
  exact ⟨rfl, rfl, rfl⟩

/-- Witness for `set_due_date_responsible_only`: the creator "C" is rejected,
and the responsible user "R" overwrites an existing due date with the
notification table untouched. -/
theorem set_due_date_responsible_only_witness :
    patchFinding fixDB "C" 1 fixDueReq = (fixDB, Resp.forbidden) ∧
    (patchFinding fixDBdue "R" 1 fixDueReq2).2 = Resp.ok ∧
    (patchFinding fixDBdue "R" 1 fixDueReq2).1.notifications
      = fixDBdue.notifications :=
  ⟨(set_due_date_responsible_only fixDB "C" 1 fixDueReq fixFinding rfl).1
      rfl (by decide),
   ((set_due_date_responsible_only fixDBdue "R" 1 fixDueReq2
        { fixFinding with dueDate := some "2024-03-10" } rfl).2
      "2024-04-01" rfl rfl rfl (by decide)).1,
   ((set_due_date_responsible_only fixDBdue "R" 1 fixDueReq2
        { fixFinding with dueDate := some "2024-03-10" } rfl).2
      "2024-04-01" rfl rfl rfl (by decide)).2.2 rfl⟩

/-- **C6 (code behaviour at the failing input)**: `fixDB` holds two open
findings with their two pending `finding_assigned` notifications.  When the
responsible user sets the *first* due date of finding 1, the notification of
finding 2 is flipped to `isActionCompleted = true` as well: the source
chains `.where(eq(relatedFindingId, id)).where(eq(type, "finding_assigned"))`
on a single drizzle update builder, and the second `.where` call replaces
the first, leaving the update scoped only by notification type. -/
theorem due_date_flip_crosses_findings :
    fixDB.notifications.map
        (fun n => (n.relatedFindingId, n.isActionCompleted))
      = [(some 1, false), (some 2, false)] ∧
    (patchFinding fixDB "R" 1 fixDueReq).2 = Resp.ok ∧
    (patchFinding fixDB "R" 1 fixDueReq).1.notifications.map
        (fun n => (n.relatedFindingId, n.isActionCompleted))
      = [(some 1, true), (some 2, true)] := by
  exact ⟨rfl, rfl, rfl⟩

/-- **C2 counterexample**: the creation request body may carry a `status`
field (`status: status || "open"` in the handler), so a leader-created
finding can be persisted with a status other than `open`. -/
theorem create_finding_status_cex :
    (createFinding fixDB "L" fixCreateClosedReq).2 = Resp.ok ∧
    (createFinding fixDB "L" fixCreateClosedReq).1.findings.map
        (fun f => f.status)
      = ["open", "open", "closed"] ∧
    ("closed" : String) ≠ "open" := by
  exact ⟨rfl, rfl, by decide⟩

/-- **C2 (amended)**: creating a finding on an existing walk with a valid
body succeeds only when the acting user is the walk's leader and is rejected
with Forbidden otherwise; on success the finding is persisted with
`dueDate = null` and `status` equal to the request's status when supplied
(defaulting to `open`), and exactly one `finding_assigned` notification with
`isActionRequired = true` is emitted to the responsible user. -/
theorem create_finding_leader_only (db : DB) (uid : String)
    (req : CreateFindingReq) (walk : Walk)
    (hv : (req.gembaWalkId == 0 || req.category == "" || req.description == ""
      || req.responsibleId == "") = false)
    (hw : db.walks.find? (fun w => w.id == req.gembaWalkId) = some walk) :
    (walk.leaderId ≠ some uid →
      createFinding db uid req = (db, Resp.forbidden)) ∧
    (walk.leaderId = some uid → db.users.contains req.responsibleId = true →
      (createFinding db uid req).2 = Resp.ok ∧
      ∃ f, (createFinding db uid req).1.findings = db.findings ++ [f] ∧
        f.dueDate = none ∧ f.status = (orNull req.status).getD "open" ∧
        f.responsibleId = req.responsibleId ∧ f.area = orNull req.area ∧
        ∃ n, (createFinding db uid req).1.notifications
            = db.notifications ++ [n] ∧
          n.userId = req.responsibleId ∧ n.type = "finding_assigned" ∧
          n.isActionRequired = true ∧ n.isActionCompleted = false ∧
          n.relatedFindingId = some f.id) := by
  constructor
  · intro hnl
    have h2 : (walk.leaderId == some uid) = false := by simp [hnl]
    simp [createFinding, hv, hw, h2]
  · intro hl hu
    have h2 : (walk.leaderId == some uid) = true := by simp [hl]
    simp only [createFinding, hv, hw, h2, hu, Bool.not_true,
      Bool.false_eq_true, if_false]
    exact ⟨trivial, _, rfl, rfl, rfl, rfl, rfl, _, rfl, rfl, rfl, rfl, rfl,
      rfl⟩

/-- Witness for `create_finding_leader_only`: "C" (creator but not leader)
is rejected; the leader "L" succeeds. -/
theorem create_finding_leader_only_witness :
    createFinding fixDB "C" fixCreateReq = (fixDB, Resp.forbidden) ∧
    (createFinding fixDB "L" fixCreateReq).2 = Resp.ok :=
  ⟨(create_finding_leader_only fixDB "C" fixCreateReq fixWalk rfl rfl).1
      (by decide),
   ((create_finding_leader_only fixDB "L" fixCreateReq fixWalk rfl rfl).2
      rfl rfl).1⟩

/-- **C10 counterexample**: `fixCreateReq` names the area "Calidad", which
is not among `fixWalk`'s areas (["Seguridad"]); the leader's creation
request is nevertheless accepted and the area persisted, not rejected as a
ValidationError. -/
theorem create_finding_area_cex :
    (fixWalk.area :: fixWalk.extraAreas) = ["Seguridad"] ∧
    fixCreateReq.area = some "Calidad" ∧
    ¬ ("Calidad" : String) ∈ ["Seguridad"] ∧
    (createFinding fixDB "L" fixCreateReq).2 = Resp.ok ∧
    (createFinding fixDB "L" fixCreateReq).1.findings.map (fun f => f.area)
      = [none, none, some "Calidad"] := by
  exact ⟨rfl, rfl, by decide, rfl, rfl⟩

/-- **C10 (amended)**: the handler performs no validation of the requested
area against the owning walk's areas — a creation request whose area is not
among the walk's areas is accepted and the area persisted as given
(`area: area || null`). -/
theorem create_finding_area_unchecked (db : DB) (uid : String)
    (req : CreateFindingReq) (walk : Walk)
    (hv : (req.gembaWalkId == 0 || req.category == "" || req.description == ""
      || req.responsibleId == "") = false)
    (hw : db.walks.find? (fun w => w.id == req.gembaWalkId) = some walk)
    (hl : walk.leaderId = some uid)
    (hu : db.users.contains req.responsibleId = true)
    (_hnm : ∀ a, req.area = some a → ¬ a ∈ walk.area :: walk.extraAreas) :
    (createFinding db uid req).2 = Resp.ok ∧
    ∃ f, (createFinding db uid req).1.findings = db.findings ++ [f] ∧
      f.area = orNull req.area := by
  have h2 : (walk.leaderId == some uid) = true := by simp [hl]
  simp only [createFinding, hv, hw, h2, hu, Bool.not_true,
    Bool.false_eq_true, if_false]
  exact ⟨trivial, _, rfl, rfl⟩

/-- Witness for `create_finding_area_unchecked` at the concrete fixture. -/
theorem create_finding_area_unchecked_witness :
    (createFinding fixDB "L" fixCreateReq).2 = Resp.ok :=
  (create_finding_area_unchecked fixDB "L" fixCreateReq fixWalk rfl rfl rfl
    rfl (by intro a ha; simp [fixCreateReq] at ha; subst ha; decide)).1

/-- Witness for `recurring_walk_invariant`: a concrete weekly recurring
request on `fixDB`. -/
theorem recurring_walk_invariant_witness :
    ∃ seed inst,
      (createGembaWalk fixDB "C" fixWalkReq).1.walks
        = fixDB.walks ++ seed :: inst ∧
      seed.parentWalkId = none ∧ seed.isRecurring = true ∧ seed ∉ inst ∧
      ∀ w ∈ inst, w.isRecurring = false ∧ w.parentWalkId = some seed.id := by
  obtain ⟨seed, inst, h1, _, h3, _, _, h6, _, _, _, _, h11, h12⟩ :=
    recurring_walk_invariant fixDB "C" fixWalkReq "A" ["B"] rfl rfl
      (by decide)
  exact ⟨seed, inst, h1, h6, h3, h12,
    fun w hw => ⟨(h11 w hw).1, (h11 w hw).2.1⟩⟩

/-- Every notification in a participant batch is a `gemba_walk_assigned`
notification with `isActionRequired = false`. -/
theorem walkParticipantNotifs_fields (nid : Nat) (pids : List String)
    (wid : Nat) (t m : String) (n : Notification)
    (hn : n ∈ walkParticipantNotifs nid pids wid t m) :
    n.type = "gemba_walk_assigned" ∧ n.isActionRequired = false := by
  simp only [walkParticipantNotifs, List.mem_map] at hn
  obtain ⟨p, _, hp⟩ := hn
  cases hp
  exact ⟨rfl, rfl⟩

/-- Every notification emitted by the recurrence loop is a
`gemba_walk_assigned` notification with `isActionRequired = false`. -/
theorem recurLoop_notif_fields (pattern : Option String)
    (endDate : Option CalDate) (seedId : Nat) (headArea : String)
    (restAreas : List String) (lid : Option String) (pids : List String)
    (uid : String) (areasText : String) (fuel : Nat) :
    ∀ cur wid nid n,
      n ∈ (recurLoop pattern endDate seedId headArea restAreas lid pids uid
        areasText fuel cur wid nid).2 →
      n.type = "gemba_walk_assigned" ∧ n.isActionRequired = false := by
  induction fuel with
  | zero => intro cur wid nid n hn; simp [recurLoop] at hn
  | succ k ih =>
    intro cur wid nid n hn
    simp only [recurLoop] at hn
    by_cases h : exceedsEnd endDate (advanceCursor pattern cur) = true
    · simp [h] at hn
    · rw [if_neg (by simp [h])] at hn
      rcases List.mem_append.mp hn with hn | hn
      · exact walkParticipantNotifs_fields _ _ _ _ _ _ hn
      · rcases List.mem_append.mp hn with hn | hn
        · cases lid with
          | none => simp at hn
          | some l =>
            have he := List.mem_singleton.mp hn
            subst he
            exact ⟨rfl, rfl⟩
        · exact ih _ _ _ n hn

/-- `POST /api/gemba-walks` only appends notifications, and every appended
notification is a `gemba_walk_assigned` one with `isActionRequired = false`. -/
theorem createGembaWalk_notifs_shape (db : DB) (uid : String)
    (req : CreateWalkReq) :
    ∃ L, (createGembaWalk db uid req).1.notifications
        = db.notifications ++ L ∧
      ∀ n ∈ L, n.type = "gemba_walk_assigned" ∧
        n.isActionRequired = false := by
  rcases hA : req.areas with _ | ⟨a, rest⟩
  · refine ⟨[], ?_, by simp⟩
    simp [createGembaWalk, hA]
  · simp only [createGembaWalk, hA]
    by_cases h1 : (req.isRecurring && !strTruthy req.recurrencePattern) = true
    · rw [if_pos h1]
      exact ⟨[], by simp, by simp⟩
    · rw [if_neg h1]
      refine ⟨_, rfl, ?_⟩
      intro n hn
      rcases List.mem_append.mp hn with hn | hn
      · generalize orNull req.leaderId = lid0 at hn
        cases lid0 with
        | none => simp at hn
        | some l =>
          have he := List.mem_singleton.mp hn
          subst he
          exact ⟨rfl, rfl⟩
      · rcases List.mem_append.mp hn with hn | hn
        · exact walkParticipantNotifs_fields _ _ _ _ _ _ hn
        · by_cases h2 : (req.isRecurring && strTruthy req.recurrencePattern)
              = true
          · rw [if_pos h2] at hn
            exact recurLoop_notif_fields _ _ _ _ _ _ _ _ _ 12 _ _ _ n hn
          · rw [if_neg h2] at hn
            simp at hn

/-- Walk creation never changes any user's pending-action count, because all
walk-assignment notifications carry `isActionRequired = false`. -/
theorem pendingCount_createGembaWalk (db : DB) (uid : String)
    (req : CreateWalkReq) (u : String) :
    pendingCount (createGembaWalk db uid req).1 u = pendingCount db u := by
  obtain ⟨L, hL, hall⟩ := createGembaWalk_notifs_shape db uid req
  simp only [pendingCount, hL, List.filter_append, List.length_append]
  have hnil : (L.filter fun n =>
      n.userId == u && n.isActionRequired && !n.isActionCompleted) = [] := by
    rw [List.filter_eq_nil_iff]
    intro n hn
    simp [(hall n hn).2]
  rw [hnil]
  simp

/-- Creating a finding adds exactly one pending action for the responsible
user. -/
theorem pendingCount_createFinding (db : DB) (uid : String)
    (req : CreateFindingReq) (walk : Walk)
    (hv : (req.gembaWalkId == 0 || req.category == "" || req.description == ""
      || req.responsibleId == "") = false)
    (hw : db.walks.find? (fun w => w.id == req.gembaWalkId) = some walk)
    (hl : walk.leaderId = some uid)
    (hu : db.users.contains req.responsibleId = true) :
    pendingCount (createFinding db uid req).1 req.responsibleId
      = pendingCount db req.responsibleId + 1 := by
  have h2 : (walk.leaderId == some uid) = true := by simp [hl]
  simp only [createFinding, hv, hw, h2, hu, Bool.not_true,
    Bool.false_eq_true, if_false]
  simp [pendingCount, List.filter_append]

/-- **C8**: `pendingActionCount(user)` counts exactly the user's
notifications with `isActionRequired` and not `isActionCompleted`;
walk-assignment notifications are always emitted with
`isActionRequired = false` and never change any pending count, while a
finding assignment adds one pending action for the responsible user. -/
theorem pending_action_count_spec :
    (∀ (db : DB) (u : String),
      pendingCount db u = db.notifications.countP
        (fun n => n.userId == u && n.isActionRequired
          && !n.isActionCompleted)) ∧
    (∀ (db : DB) (uid : String) (req : CreateWalkReq) (u : String),
      pendingCount (createGembaWalk db uid req).1 u = pendingCount db u) ∧
    (∀ (db : DB) (uid : String) (req : CreateWalkReq) (n : Notification),
      n ∈ (createGembaWalk db uid req).1.notifications →
      n ∈ db.notifications ∨
        (n.type = "gemba_walk_assigned" ∧ n.isActionRequired = false)) ∧
    (∀ (db : DB) (uid : String) (req : CreateFindingReq) (walk : Walk),
      (req.gembaWalkId == 0 || req.category == "" || req.description == ""
        || req.responsibleId == "") = false →
      db.walks.find? (fun w => w.id == req.gembaWalkId) = some walk →
      walk.leaderId = some uid →
      db.users.contains req.responsibleId = true →
      pendingCount (createFinding db uid req).1 req.responsibleId
        = pendingCount db req.responsibleId + 1) := by
  refine ⟨?_, pendingCount_createGembaWalk, ?_, pendingCount_createFinding⟩
  · intro db u
    rw [pendingCount, List.countP_eq_length_filter]
  · intro db uid req n hn
    obtain ⟨L, hL, hall⟩ := createGembaWalk_notifs_shape db uid req
    rw [hL] at hn
    rcases List.mem_append.mp hn with hn | hn
    · exact Or.inl hn
    · exact Or.inr (hall n hn)

/-- Witness for `pending_action_count_spec`: assigning a finding to "R" on
`fixDB` raises R's pending count by one. -/
theorem pending_action_count_spec_witness :
    pendingCount (createFinding fixDB "L" fixCreateReq).1 "R"
      = pendingCount fixDB "R" + 1 :=
  pending_action_count_spec.2.2.2 fixDB "L" fixCreateReq fixWalk rfl rfl
    rfl rfl

/-- Stable descending insertion preserves membership. -/
theorem mem_insertByCreatedAtDesc (w x : Walk) (l : List Walk) :
    x ∈ insertByCreatedAtDesc w l ↔ x = w ∨ x ∈ l := by
  induction l with
  | nil => simp [insertByCreatedAtDesc]
  | cons a l ih =>
    simp only [insertByCreatedAtDesc]
    by_cases h : w.createdAt ≤ a.createdAt
    · rw [if_pos h]
      simp only [List.mem_cons, ih]
      tauto
    · rw [if_neg h]
      simp only [List.mem_cons]

/-- The descending-`createdAt` sort preserves membership. -/
theorem mem_sortByCreatedAtDesc (x : Walk) (l : List Walk) :
    x ∈ sortByCreatedAtDesc l ↔ x ∈ l := by
  induction l with
  | nil => simp [sortByCreatedAtDesc]
  | cons a l ih =>
    simp only [sortByCreatedAtDesc, mem_insertByCreatedAtDesc, ih,
      List.mem_cons]

/-- Membership in the first-occurrence id-deduplication, assuming ids
determine list elements (the walks come from a table with a serial primary
key). -/
theorem mem_dedupById (l : List Walk) (w : Walk)
    (huniq : ∀ a ∈ l, ∀ b ∈ l, a.id = b.id → a = b) :
    ∀ seen, w ∈ dedupById l seen ↔ w ∈ l ∧ ¬ w.id ∈ seen := by
  induction l with
  | nil => intro seen; simp [dedupById]
  | cons a l ih =>
    intro seen
    have huniq2 : ∀ x ∈ l, ∀ y ∈ l, x.id = y.id → x = y :=
      fun x hx y hy =>
        huniq x (List.mem_cons_of_mem a hx) y (List.mem_cons_of_mem a hy)
    simp only [dedupById]
    by_cases h : seen.contains a.id = true
    · rw [if_pos h]
      have ha : a.id ∈ seen := by simpa using h
      rw [ih huniq2]
      constructor
      · rintro ⟨hw, hs⟩
        exact ⟨List.mem_cons_of_mem a hw, hs⟩
      · rintro ⟨hw, hs⟩
        rcases List.mem_cons.mp hw with rfl | hw
        · exact absurd ha hs
        · exact ⟨hw, hs⟩
    · rw [if_neg h]
      have ha : ¬ a.id ∈ seen := by simpa using h
      simp only [List.mem_cons, ih huniq2]
      constructor
      · rintro (rfl | ⟨hw, hs⟩)
        · exact ⟨Or.inl rfl, ha⟩
        · exact ⟨Or.inr hw, fun hx => hs (Or.inr hx)⟩
      · rintro ⟨rfl | hw, hs⟩
        · exact Or.inl rfl
        · by_cases he : w.id = a.id
          · exact Or.inl (huniq w (List.mem_cons_of_mem a hw) a
              (List.mem_cons_self a l) he)
          · refine Or.inr ⟨hw, fun hx => ?_⟩
            rcases hx with hx | hx
            · exact he hx
            · exact hs hx

/-- **C9**: `getGembaWalks` returns exactly the walks on which the user is
the creator, the leader, or a participant (the union of the three roles),
provided walk ids are unique as the serial primary key guarantees. -/
theorem walks_accessible_iff (db : DB) (uid : String) (w : Walk)
    (huniq : ∀ a ∈ db.walks, ∀ b ∈ db.walks, a.id = b.id → a = b) :
    w ∈ getGembaWalks db uid ↔
      w ∈ db.walks ∧ (w.createdBy = uid ∨ w.leaderId = some uid ∨
        uid ∈ w.participants) := by
  have huniq3 : ∀ a ∈ (db.walks.filter fun x => x.createdBy == uid)
        ++ (db.walks.filter fun x => x.leaderId == some uid)
        ++ (db.walks.filter fun x => x.participants.contains uid),
      ∀ b ∈ (db.walks.filter fun x => x.createdBy == uid)
        ++ (db.walks.filter fun x => x.leaderId == some uid)
        ++ (db.walks.filter fun x => x.participants.contains uid),
      a.id = b.id → a = b := by
    intro a ha b hb
    have ha2 : a ∈ db.walks := by
      rcases List.mem_append.mp ha with h | h
      · rcases List.mem_append.mp h with h | h <;>
          exact (List.mem_filter.mp h).1
      · exact (List.mem_filter.mp h).1
    have hb2 : b ∈ db.walks := by
      rcases List.mem_append.mp hb with h | h
      · rcases List.mem_append.mp h with h | h <;>
          exact (List.mem_filter.mp h).1
      · exact (List.mem_filter.mp h).1
    exact huniq a ha2 b hb2
  simp only [getGembaWalks]
  rw [mem_sortByCreatedAtDesc, mem_dedupById _ _ huniq3]
  simp only [List.mem_append, List.mem_filter, List.not_mem_nil,
    not_false_iff, and_true, beq_iff_eq]
  constructor
  · rintro ((⟨hw, hc⟩ | ⟨hw, hc⟩) | ⟨hw, hc⟩)
    · exact ⟨hw, Or.inl hc⟩
    · exact ⟨hw, Or.inr (Or.inl hc)⟩
    · exact ⟨hw, Or.inr (Or.inr (by simpa using hc))⟩
  · rintro ⟨hw, hc | hc | hc⟩
    · exact Or.inl (Or.inl ⟨hw, hc⟩)
    · exact Or.inl (Or.inr ⟨hw, hc⟩)
    · exact Or.inr ⟨hw, by simpa using hc⟩

/-- Witness for `walks_accessible_iff`: the leader "L" sees `fixWalk`; both
directions of the equivalence at a concrete state. -/
theorem walks_accessible_iff_witness :
    fixWalk ∈ getGembaWalks fixDB "L" :=
  (walks_accessible_iff fixDB "L" fixWalk (by decide)).mpr
    ⟨by decide, Or.inr (Or.inl rfl)⟩

end Gembops
